import Mathlib

/-!
Verification of the exercise-group reconciliation engine: the crossing
resolver (snapshot loader, reverse index, intersection and representative
selection) and the resolution applier (batched transactional writer).
Go integers are modelled as `Int`; Go maps as functions into `Option`;
Go slices as `List`; SQL row order as list order; fallible statements as
`Except`.
-/

deriving instance DecidableEq for Except

/-- The hand-off artifact: one crossed existing group and the intersection. -/
structure CrossingGroup where
  ID : Int
  Intersection : List Int
deriving DecidableEq

/-- One resolution record, the durable artifact between resolver and applier. -/
structure CrossingResult where
  NewGroupID : Int
  BaseGroupID : Int
  ProblemIDs : List Int
  CrossingGroups : List CrossingGroup
  Representative : Int
  SelectionReason : String
deriving DecidableEq

/-- `highest := l[0]; for id in l, if id > highest then highest := id`:
the max-scan loop shared by both programs (0 when the list is empty; both
call sites guard non-emptiness). -/
def listMax : List Int → Int
  | [] => 0
  | x :: xs => xs.foldl (fun h v => if v > h then v else h) x

namespace Resolver

/-- One existing group as loaded from the snapshot CSV. -/
structure ExerciseGroup where
  ID : Int
  ProblemIDs : List Int
  ProblemVideos : List Bool
  Representative : Int
  HasRepresentative : Bool
  RepresentativeHasVideo : Bool
deriving DecidableEq

/-- A candidate representative collected from crossed groups. -/
structure RepresentativeInfo where
  ProblemID : Int
  HasSolutionVideo : Bool
  SelectionReason : String
deriving DecidableEq

/-- The loop of `findIntersection`: walk `slice2`, keeping elements that are
in `elementMap` (membership in `slice1`) and not yet in `seen`. -/
def findIntersectionAux (slice1 : List Int) : List Int → List Int → List Int
  | [], _ => []
  | v :: rest, seen =>
    if v ∈ slice1 ∧ v ∉ seen then
      v :: findIntersectionAux slice1 rest (seen ++ [v])
    else
      findIntersectionAux slice1 rest seen

/-- `findIntersection(slice1, slice2)` from the resolver. -/
def findIntersection (slice1 slice2 : List Int) : List Int :=
  findIntersectionAux slice1 slice2 []

/-- The crossing-collection loop of `processGroup`: for each candidate
existing-group id (in `relatedOrder`, the iteration order over the related-id
set), look the group up, compute the intersection, and record a
`CrossingGroup` when it is non-empty. -/
def processGroupCrossings (newGroup : List Int)
    (eg : Int → Option ExerciseGroup) : List Int → List CrossingGroup
  | [] => []
  | gid :: rest =>
    match eg gid with
    | some g =>
      let inter := findIntersection newGroup g.ProblemIDs
      if inter.isEmpty then processGroupCrossings newGroup eg rest
      else ⟨gid, inter⟩ :: processGroupCrossings newGroup eg rest
    | none => processGroupCrossings newGroup eg rest

/-- The first loop of the resolver's `selectBestRepresentative`: collect the
representative of every crossed group that has one (`HasRepresentative` and a
positive id), in crossing iteration order. -/
def collectExistingReps (eg : Int → Option ExerciseGroup) :
    List CrossingGroup → List RepresentativeInfo
  | [] => []
  | c :: rest =>
    match eg c.ID with
    | some g =>
      if g.HasRepresentative ∧ g.Representative > 0 then
        ⟨g.Representative, g.RepresentativeHasVideo, "기존 대표 문제"⟩ ::
          collectExistingReps eg rest
      else collectExistingReps eg rest
    | none => collectExistingReps eg rest

/-- Inner loop of the candidate filter: append `rep` once per member of
`newGroup` equal to its problem id. -/
def candInner (rep : RepresentativeInfo) : List Int → List RepresentativeInfo
  | [] => []
  | pid :: rest =>
    if pid = rep.ProblemID then rep :: candInner rep rest else candInner rep rest

/-- The double loop building `candidateRepresentatives`. -/
def collectCandidates (newGroup : List Int) :
    List RepresentativeInfo → List RepresentativeInfo
  | [] => []
  | rep :: rest => candInner rep newGroup ++ collectCandidates newGroup rest

/-- The video-preference scan over the candidates. -/
def findVideoCand : List RepresentativeInfo → Option RepresentativeInfo
  | [] => none
  | rep :: rest => if rep.HasSolutionVideo then some rep else findVideoCand rest

/-- `selectBestFromNewGroup` from the resolver: the highest id with an
audit reason depending on which fallback sub-case applies. -/
def selectBestFromNewGroup (newGroup : List Int)
    (crossingGroups : List CrossingGroup)
    (existingRepresentatives : List RepresentativeInfo) : Int × String :=
  let highest := listMax newGroup
  if crossingGroups.isEmpty then
    (highest, "교차 없음 - 가장 높은 ID 선택")
  else if existingRepresentatives.isEmpty then
    (highest, "기존 대표 문제가 없어서 가장 높은 ID 선택")
  else
    (highest, "기존 대표 문제가 새 그룹에 포함되지 않아서 가장 높은 ID 선택")

/-- `selectBestRepresentative` from the resolver. -/
def selectBestRepresentative (newGroup : List Int)
    (crossingGroups : List CrossingGroup)
    (existingGroups : Int → Option ExerciseGroup) : Int × String :=
  if newGroup.isEmpty then (0, "빈 그룹")
  else
    let existingRepresentatives := collectExistingReps existingGroups crossingGroups
    match collectCandidates newGroup existingRepresentatives with
    | [] => selectBestFromNewGroup newGroup crossingGroups existingRepresentatives
    | c :: rest =>
      match findVideoCand (c :: rest) with
      | some rep => (rep.ProblemID, "기존 대표 문제가 새 그룹에 포함됨 (비디오 있음)")
      | none => (c.ProblemID, "기존 대표 문제가 새 그룹에 포함됨")

/-- Inner loop of `buildProblemIndex`:
`index[problemID] = append(index[problemID], group.ID)` for each member. -/
def insertProblems (gid : Int) : List Int → (Int → List Int) → (Int → List Int)
  | [], idx => idx
  | pid :: rest, idx =>
    insertProblems gid rest (fun q => if q = pid then idx q ++ [gid] else idx q)

/-- Outer loop of `buildProblemIndex` over the group collection. -/
def buildProblemIndexAux : List ExerciseGroup → (Int → List Int) → (Int → List Int)
  | [], idx => idx
  | g :: rest, idx => buildProblemIndexAux rest (insertProblems g.ID g.ProblemIDs idx)

/-- `buildProblemIndex` from the resolver: problem id → group ids holding it. -/
def buildProblemIndex (groups : List ExerciseGroup) : Int → List Int :=
  buildProblemIndexAux groups (fun _ => [])

/-- Decimal digits to a number, most significant first. -/
def digitsToNat (ds : List Char) : Nat :=
  ds.foldl (fun n c => n * 10 + (c.toNat - 48)) 0

/-- `strconv.Atoi`: an optional sign followed by one or more ASCII digits;
anything else is a parse error (`none`). Overflow is not modelled: the ids
parsed here are far below the 64-bit bound. -/
def atoi (s : String) : Option Int :=
  match s.toList with
  | [] => none
  | c :: rest =>
    let body := if c = '-' ∨ c = '+' then rest else c :: rest
    if body.isEmpty ∨ ¬ body.all (fun d => d.isDigit) then none
    else if c = '-' then some (-(digitsToNat body : Int))
    else some ((digitsToNat body : Int))

/-- The member-id loop of `loadExerciseGroups`: trim each entry, keep it when
`strconv.Atoi` succeeds, silently drop it otherwise. -/
def parseProblemIDs : List String → List Int
  | [] => []
  | s :: rest =>
    match atoi s.trim with
    | some v => v :: parseProblemIDs rest
    | none => parseProblemIDs rest

/-- One data row of the snapshot CSV. The CSV reader guarantees every row
carries the header's field count, so the two mandatory columns are present;
absent optional columns (2..5) default as in the source. A row whose group-id
column does not parse yields `none` (the `continue` branch). -/
def parseRow (record : List String) : Option ExerciseGroup :=
  match atoi (record.getD 0 "") with
  | none => none
  | some groupID =>
    let problemIDs :=
      if record.getD 1 "" = "" then []
      else parseProblemIDs ((record.getD 1 "").splitOn ",")
    let problemVideos :=
      if 2 < record.length ∧ record.getD 2 "" ≠ "" then
        ((record.getD 2 "").splitOn ",").map (fun s => s.trim == "true")
      else []
    let representative :=
      if 3 < record.length ∧ record.getD 3 "" ≠ "" then
        (atoi (record.getD 3 "")).getD 0
      else 0
    let hasRepresentative :=
      if 4 < record.length then record.getD 4 "" == "true" else false
    let representativeHasVideo :=
      if 5 < record.length then record.getD 5 "" == "true" else false
    some ⟨groupID, problemIDs, problemVideos, representative,
      hasRepresentative, representativeHasVideo⟩

/-- The row loop of `loadExerciseGroups`, accumulating the group map
(`groups[groupID] = ...` overwrites an earlier row with the same id). -/
def loadRows : List (List String) → (Int → Option ExerciseGroup) →
    (Int → Option ExerciseGroup)
  | [], m => m
  | record :: rest, m =>
    match parseRow record with
    | none => loadRows rest m
    | some g => loadRows rest (fun k => if k = g.ID then some g else m k)

/-- `loadExerciseGroups` over the parsed CSV rows: the first row is the
header (its absence is the reader's EOF error); the rest feed the row loop. -/
def loadExerciseGroups (rows : List (List String)) :
    Except String (Int → Option ExerciseGroup) :=
  match rows with
  | [] => Except.error "EOF"
  | _ :: dataRows => Except.ok (loadRows dataRows (fun _ => none))

/-- `getMaxGroupID` over the ids of the snapshot map. -/
def getMaxGroupID (ids : List Int) : Int :=
  ids.foldl (fun maxID id => if id > maxID then id else maxID) 0

end Resolver

namespace Race

/-- The two counter statements one worker executes in `processGroup`:
`newGroupID := *nextGroupID` (read) and `*nextGroupID++` (inc), for each of
two workers of the pool. The shared `nextGroupID` is a plain `*int`, so the
two statements of a worker are not one atomic step and steps of the other
worker may interleave between them. -/
inductive RaceStep where
  | read1
  | inc1
  | read2
  | inc2
deriving DecidableEq

/-- The shared counter plus each worker's assigned new-group id. -/
structure RaceState where
  counter : Int
  id1 : Option Int
  id2 : Option Int
deriving DecidableEq

/-- Effect of one statement on the shared state. -/
def raceStepRun (s : RaceState) : RaceStep → RaceState
  | .read1 => { s with id1 := some s.counter }
  | .read2 => { s with id2 := some s.counter }
  | .inc1 => { s with counter := s.counter + 1 }
  | .inc2 => { s with counter := s.counter + 1 }

/-- Run a schedule from the seeded counter
(`nextGroupID := getMaxGroupID(existingGroups) + 1`). -/
def runRace (seed : Int) (sched : List RaceStep) : RaceState :=
  sched.foldl raceStepRun ⟨seed, none, none⟩

/-- A schedule is an interleaving of the two workers' program orders:
each worker performs its read and then its increment, each exactly once. -/
def validSchedule (sched : List RaceStep) : Prop :=
  sched.filter (fun st => decide (st = RaceStep.read1 ∨ st = RaceStep.inc1)) =
    [RaceStep.read1, RaceStep.inc1] ∧
  sched.filter (fun st => decide (st = RaceStep.read2 ∨ st = RaceStep.inc2)) =
    [RaceStep.read2, RaceStep.inc2]

end Race

namespace CsvUploader

/-- One row of the `exercises` table as seen by the Applier:
`id`, `metadata->>'mathflatProblemId'`, `category_id`, `exercise_group_id`,
`is_representative`, `solution_video_id IS NOT NULL`, `deleted_at` set. -/
structure Exercise where
  id : Int
  problemId : Int
  categoryId : Int
  groupId : Int
  isRepresentative : Bool
  hasVideo : Bool
  deleted : Bool
deriving DecidableEq

/-- One row of the `exercise_groups` table. -/
structure GroupRow where
  id : Int
  categoryId : Int
  deleted : Bool
deriving DecidableEq

/-- The relational store the Applier touches; list order models the
unspecified SQL result order and `nextGroupId` the insert sequence. -/
structure DB where
  exercises : List Exercise
  groups : List GroupRow
  nextGroupId : Int
deriving DecidableEq

/-- Transaction-scoped state: the store, a statement counter and an optional
fault-injection point modelling a failing write statement (constraint
violation or connection drop). Read statements are modelled infallible. -/
structure TxState where
  db : DB
  stmts : Nat
  failAt : Option Nat
deriving DecidableEq

/-- A candidate representative read back from the store. -/
structure RepresentativeInfo where
  ExerciseID : Int
  ProblemID : Int
  HasSolutionVideo : Bool
  SelectionReason : String
deriving DecidableEq

/-- Execute one write statement; it fails when the fault point is reached. -/
def execWrite (f : DB → DB) (ts : TxState) : Except String TxState :=
  if ts.failAt = some ts.stmts then Except.error "statement failed"
  else Except.ok ⟨f ts.db, ts.stmts + 1, ts.failAt⟩

/-- Execute one write statement returning a value (INSERT .. RETURNING). -/
def execWriteVal (f : DB → Int × DB) (ts : TxState) :
    Except String (Int × TxState) :=
  if ts.failAt = some ts.stmts then Except.error "statement failed"
  else Except.ok ((f ts.db).1, ⟨(f ts.db).2, ts.stmts + 1, ts.failAt⟩)

/-- `getCategoryIDFromProblem`: the category of the first (LIMIT 1) live
exercise row with the given external problem id; 0 on ErrNoRows. -/
def getCategoryIDFromProblem (db : DB) (problemID : Int) : Int :=
  match (db.exercises.filter
      (fun e => e.problemId == problemID && !e.deleted)).head? with
  | some e => e.categoryId
  | none => 0

/-- The category-resolution loop of `processResult`: the first nonzero
category over the record's member ids in order. -/
def firstCategory (db : DB) : List Int → Int
  | [] => 0
  | pid :: rest =>
    let c := getCategoryIDFromProblem db pid
    if c ≠ 0 then c else firstCategory db rest

/-- `createExerciseGroup`: insert a group row, returning its fresh id. -/
def createExerciseGroup (categoryID : Int) (ts : TxState) :
    Except String (Int × TxState) :=
  execWriteVal (fun db =>
    (db.nextGroupId,
      { db with
          groups := db.groups ++ [⟨db.nextGroupId, categoryID, false⟩],
          nextGroupId := db.nextGroupId + 1 })) ts

/-- `markGroupAsDeleted`: soft-delete the group row with the given id. -/
def markGroupAsDeleted (groupID : Int) (ts : TxState) : Except String TxState :=
  execWrite (fun db =>
    { db with groups := db.groups.map (fun g =>
        if g.id == groupID then { g with deleted := true } else g) }) ts

/-- The soft-delete loop over the record's crossing groups. -/
def markCrossings : List CrossingGroup → TxState → Except String TxState
  | [], ts => Except.ok ts
  | c :: rest, ts =>
    match markGroupAsDeleted c.ID ts with
    | Except.error e => Except.error e
    | Except.ok ts1 => markCrossings rest ts1

/-- `updateExercisesGroup`: one UPDATE per member problem id, reassigning
every live row with that id to the new group (no row is a silent no-op). -/
def updateExercisesGroup : List Int → Int → TxState → Except String TxState
  | [], _, ts => Except.ok ts
  | pid :: rest, newGroupID, ts =>
    match execWrite (fun db =>
        { db with exercises := db.exercises.map (fun e =>
            if e.problemId == pid && !e.deleted then
              { e with groupId := newGroupID }
            else e) }) ts with
    | Except.error e => Except.error e
    | Except.ok ts1 => updateExercisesGroup rest newGroupID ts1

/-- The representative query of one crossed group: its live rows flagged
`is_representative`, in row order. -/
def queryReps (db : DB) (groupID : Int) : List RepresentativeInfo :=
  (db.exercises.filter
      (fun e => e.groupId == groupID && e.isRepresentative && !e.deleted)).map
    (fun e => ⟨e.id, e.problemId, e.hasVideo, ""⟩)

/-- The collection loop over all crossing groups. -/
def tierCollect (db : DB) : List CrossingGroup → List RepresentativeInfo
  | [] => []
  | c :: rest => queryReps db c.ID ++ tierCollect db rest

/-- Inner loop of the first preference pass. -/
def findVideoRepInner (rep : RepresentativeInfo) : List Int → Option Int
  | [] => none
  | pid :: rest =>
    if pid == rep.ProblemID && rep.HasSolutionVideo then some rep.ProblemID
    else findVideoRepInner rep rest

/-- First pass: the first collected representative that is a member of the
record and carries a solution video. -/
def findVideoRep : List RepresentativeInfo → List Int → Option Int
  | [], _ => none
  | rep :: rest, pids =>
    match findVideoRepInner rep pids with
    | some x => some x
    | none => findVideoRep rest pids

/-- Inner loop of the second preference pass. -/
def findMemberRepInner (rep : RepresentativeInfo) : List Int → Option Int
  | [] => none
  | pid :: rest =>
    if pid == rep.ProblemID then some rep.ProblemID
    else findMemberRepInner rep rest

/-- Second pass: the first collected representative that is a member,
video or not. -/
def findMemberRep : List RepresentativeInfo → List Int → Option Int
  | [], _ => none
  | rep :: rest, pids =>
    match findMemberRepInner rep pids with
    | some x => some x
    | none => findMemberRep rest pids

/-- Third pass: the first member problem id whose (LIMIT 1) live row has a
solution video attached. -/
def findVideoProblem (db : DB) : List Int → Option Int
  | [] => none
  | pid :: rest =>
    match (db.exercises.filter
        (fun e => e.problemId == pid && !e.deleted)).head? with
    | some e => if e.hasVideo then some pid else findVideoProblem db rest
    | none => findVideoProblem db rest

/-- `selectBestRepresentative` of the uploader over live store state. When
there are no crossing groups the source returns the maximum member id at
once; otherwise it runs the three passes and falls back to the maximum. -/
def selectBestRepresentative (db : DB) (problemIDs : List Int)
    (crossingGroups : List CrossingGroup) : Int :=
  if problemIDs.isEmpty then 0
  else if crossingGroups.isEmpty then listMax problemIDs
  else
    let reps := tierCollect db crossingGroups
    match findVideoRep reps problemIDs with
    | some x => x
    | none =>
      match findMemberRep reps problemIDs with
      | some x => x
      | none =>
        match findVideoProblem db problemIDs with
        | some x => x
        | none => listMax problemIDs

/-- Modelled from the spec: the claim's uniform four-tier policy, applied
identically whether or not the record has crossing groups (no early return
on an empty crossing list); used to compare the claimed behavior with the
source's `selectBestRepresentative`. -/
def selectBestRepresentativeClaimed (db : DB) (problemIDs : List Int)
    (crossingGroups : List CrossingGroup) : Int :=
  if problemIDs.isEmpty then 0
  else
    let reps := tierCollect db crossingGroups
    match findVideoRep reps problemIDs with
    | some x => x
    | none =>
      match findMemberRep reps problemIDs with
      | some x => x
      | none =>
        match findVideoProblem db problemIDs with
        | some x => x
        | none => listMax problemIDs

/-- Per-row effect of the clearing UPDATE of `setRepresentativeExercise`. -/
def clearFn (groupID : Int) (e : Exercise) : Exercise :=
  if e.groupId == groupID && !e.deleted then
    { e with isRepresentative := false }
  else e

/-- Per-row effect of the setting UPDATE of `setRepresentativeExercise`. -/
def setFn (problemID groupID : Int) (e : Exercise) : Exercise :=
  if e.problemId == problemID && e.groupId == groupID && !e.deleted then
    { e with isRepresentative := true }
  else e

/-- First UPDATE of `setRepresentativeExercise`: clear the flag on every
live exercise of the group. -/
def clearRepFlags (groupID : Int) (db : DB) : DB :=
  { db with exercises := db.exercises.map (clearFn groupID) }

/-- Second UPDATE: set the flag on the live rows of the group matching the
chosen problem id (a silent no-op when no row matches). -/
def setRepFlag (problemID groupID : Int) (db : DB) : DB :=
  { db with exercises := db.exercises.map (setFn problemID groupID) }

/-- `setRepresentativeExercise`: clear every flag of the group, then set
the chosen one. -/
def setRepresentativeExercise (problemID groupID : Int) (ts : TxState) :
    Except String TxState :=
  match execWrite (clearRepFlags groupID) ts with
  | Except.error e => Except.error e
  | Except.ok ts1 => execWrite (setRepFlag problemID groupID) ts1

/-- `processResult`: apply one resolution record inside the chunk
transaction. Returns the updated transaction state together with the
warnings printed (the new-group id of a skipped record). -/
def processResult (result : CrossingResult) (ts : TxState) :
    Except String (TxState × List Int) :=
  if result.ProblemIDs.isEmpty then Except.ok (ts, [])
  else
    let categoryID := firstCategory ts.db result.ProblemIDs
    if categoryID = 0 then Except.ok (ts, [result.NewGroupID])
    else
      match createExerciseGroup categoryID ts with
      | Except.error e => Except.error e
      | Except.ok (newGroupID, ts1) =>
        match markCrossings result.CrossingGroups ts1 with
        | Except.error e => Except.error e
        | Except.ok ts2 =>
          match updateExercisesGroup result.ProblemIDs newGroupID ts2 with
          | Except.error e => Except.error e
          | Except.ok ts3 =>
            let representative :=
              selectBestRepresentative ts3.db result.ProblemIDs result.CrossingGroups
            if representative ≠ 0 then
              match setRepresentativeExercise representative newGroupID ts3 with
              | Except.error e => Except.error e
              | Except.ok ts4 => Except.ok (ts4, [])
            else Except.ok (ts3, [])

/-- The record loop of `processBatch`, collecting warnings. -/
def processRecords : List CrossingResult → TxState →
    Except String (TxState × List Int)
  | [], ts => Except.ok (ts, [])
  | r :: rest, ts =>
    match processResult r ts with
    | Except.error e => Except.error e
    | Except.ok (ts1, w1) =>
      match processRecords rest ts1 with
      | Except.error e => Except.error e
      | Except.ok (ts2, w2) => Except.ok (ts2, w1 ++ w2)

/-- `processBatch`: one transaction per chunk; on success the chunk
commits, on any error the whole store rolls back to its pre-chunk state
and the error propagates. -/
def processBatch (db : DB) (failAt : Option Nat)
    (batch : List CrossingResult) : DB × Option String :=
  match processRecords batch ⟨db, 0, failAt⟩ with
  | Except.ok (ts, _) => (ts.db, none)
  | Except.error e => (db, some e)

end CsvUploader

theorem listMax_foldl_le (xs : List Int) (x : Int) :
    x ≤ xs.foldl (fun h v => if v > h then v else h) x := by
  induction xs generalizing x with
  | nil => simp
  | cons y ys ih =>
    simp only [List.foldl_cons]
    by_cases h : y > x
    · simp only [if_pos h]
      exact le_trans (le_of_lt h) (ih y)
    · simp only [if_neg h]
      exact ih x

theorem listMax_foldl_mem (xs : List Int) (x : Int) :
    xs.foldl (fun h v => if v > h then v else h) x ∈ x :: xs := by
  induction xs generalizing x with
  | nil => simp [List.foldl_nil]
  | cons y ys ih =>
    simp only [List.foldl_cons]
    by_cases h : y > x
    · simp only [if_pos h]
      rcases List.mem_cons.mp (ih y) with h' | h'
      · simp [h']
      · simp [List.mem_cons, h']
    · simp only [if_neg h]
      rcases List.mem_cons.mp (ih x) with h' | h'
      · simp [h']
      · simp [List.mem_cons, h']

theorem listMax_foldl_ge (xs : List Int) (x y : Int) (hy : y ∈ xs) :
    y ≤ xs.foldl (fun h v => if v > h then v else h) x := by
  induction xs generalizing x with
  | nil => cases hy
  | cons z zs ih =>
    simp only [List.foldl_cons]
    rcases List.mem_cons.mp hy with rfl | hmem
    · by_cases h : y > x
      · simp only [if_pos h]
        exact listMax_foldl_le zs y
      · simp only [if_neg h]
        exact le_trans (not_lt.mp h) (listMax_foldl_le zs x)
    · by_cases h : z > x
      · simp only [if_pos h]
        exact ih z hmem
      · simp only [if_neg h]
        exact ih x hmem

/-- `listMax` of a non-empty list is a member. -/
theorem listMax_mem (l : List Int) (h : l ≠ []) : listMax l ∈ l := by
  cases l with
  | nil => exact absurd rfl h
  | cons x xs => exact listMax_foldl_mem xs x

/-- `listMax` of a non-empty list bounds every member. -/
theorem listMax_ge (l : List Int) (y : Int) (hy : y ∈ l) : y ≤ listMax l := by
  cases l with
  | nil => cases hy
  | cons x xs =>
    rcases List.mem_cons.mp hy with rfl | hmem
    · exact listMax_foldl_le xs y
    · exact listMax_foldl_ge xs x y hmem

namespace Resolver

theorem mem_findIntersectionAux (slice1 : List Int) :
    ∀ (l seen : List Int) (x : Int),
      x ∈ findIntersectionAux slice1 l seen ↔ x ∈ l ∧ x ∈ slice1 ∧ x ∉ seen := by
  intro l
  induction l with
  | nil => intro seen x; simp [findIntersectionAux]
  | cons v rest ih =>
    intro seen x
    by_cases hv : v ∈ slice1 ∧ v ∉ seen
    · simp only [findIntersectionAux, if_pos hv, List.mem_cons, ih,
        List.mem_append, List.mem_singleton, not_or]
      by_cases hx : x = v
      · subst hx
        simp [hv.1, hv.2]
      · simp [hx]
    · simp only [findIntersectionAux, if_neg hv, ih, List.mem_cons]
      constructor
      · rintro ⟨hr, h1, hs⟩
        exact ⟨Or.inr hr, h1, hs⟩
      · rintro ⟨hmem, h1, hs⟩
        rcases hmem with rfl | hr
        · exact absurd ⟨h1, hs⟩ hv
        · exact ⟨hr, h1, hs⟩

theorem nodup_findIntersectionAux (slice1 : List Int) :
    ∀ (l seen : List Int), (findIntersectionAux slice1 l seen).Nodup := by
  intro l
  induction l with
  | nil => intro seen; simp [findIntersectionAux]
  | cons v rest ih =>
    intro seen
    by_cases hv : v ∈ slice1 ∧ v ∉ seen
    · simp only [findIntersectionAux, if_pos hv]
      refine List.nodup_cons.mpr ⟨?_, ih _⟩
      intro hmem
      have := (mem_findIntersectionAux slice1 rest (seen ++ [v]) v).mp hmem
      exact this.2.2 (by simp)
    · simp only [findIntersectionAux, if_neg hv]
      exact ih _

theorem pairwise_findIntersectionAux (slice1 : List Int) :
    ∀ (l seen : List Int),
      (findIntersectionAux slice1 l seen).Pairwise
        (fun x y => l.indexOf x < l.indexOf y) := by
  intro l
  induction l with
  | nil => intro seen; simp [findIntersectionAux]
  | cons v rest ih =>
    intro seen
    have lift : ∀ (s : List Int),
        (∀ x ∈ findIntersectionAux slice1 rest s, x ≠ v) →
        (findIntersectionAux slice1 rest s).Pairwise
          (fun x y => (v :: rest).indexOf x < (v :: rest).indexOf y) := by
      intro s hne
      refine List.Pairwise.imp_of_mem ?_ (ih s)
      intro a b ha hb hab
      have hav : a ≠ v := hne a ha
      have hbv : b ≠ v := hne b hb
      rw [List.indexOf_cons_ne _ (Ne.symm hav), List.indexOf_cons_ne _ (Ne.symm hbv)]
      omega
    by_cases hv : v ∈ slice1 ∧ v ∉ seen
    · simp only [findIntersectionAux, if_pos hv]
      refine List.pairwise_cons.mpr ⟨?_, ?_⟩
      · intro y hy
        have hmem := (mem_findIntersectionAux slice1 rest (seen ++ [v]) y).mp hy
        have hyv : y ≠ v := by
          intro h
          exact hmem.2.2 (by simp [h])
        rw [List.indexOf_cons_self, List.indexOf_cons_ne _ (Ne.symm hyv)]
        omega
      · refine lift _ ?_
        intro x hx h
        have hmem := (mem_findIntersectionAux slice1 rest (seen ++ [v]) x).mp hx
        exact hmem.2.2 (by simp [h])
    · simp only [findIntersectionAux, if_neg hv]
      refine lift _ ?_
      intro x hx h
      have hmem := (mem_findIntersectionAux slice1 rest seen x).mp hx
      subst h
      exact hv ⟨hmem.2.1, hmem.2.2⟩

theorem findVideoCand_candInner_append (rep : RepresentativeInfo)
    (l : List Int) (tail : List RepresentativeInfo) :
    findVideoCand (candInner rep l ++ tail) =
      if rep.ProblemID ∈ l ∧ rep.HasSolutionVideo then some rep
      else findVideoCand tail := by
  induction l with
  | nil => simp [candInner]
  | cons pid rest ih =>
    by_cases hp : pid = rep.ProblemID
    · simp only [candInner, if_pos hp, List.cons_append, findVideoCand]
      by_cases hv : rep.HasSolutionVideo
      · simp [hv, hp, List.mem_cons]
      · simp [hv, ih]
    · simp only [candInner, if_neg hp]
      rw [ih]
      have hmem : (rep.ProblemID ∈ pid :: rest) ↔ rep.ProblemID ∈ rest := by
        simp only [List.mem_cons, or_iff_right_iff_imp]
        intro h
        exact absurd h.symm hp
      simp [hmem]

theorem head?_candInner_append (rep : RepresentativeInfo)
    (l : List Int) (tail : List RepresentativeInfo) :
    (candInner rep l ++ tail).head? =
      if rep.ProblemID ∈ l then some rep else tail.head? := by
  induction l with
  | nil => simp [candInner]
  | cons pid rest ih =>
    by_cases hp : pid = rep.ProblemID
    · simp [candInner, if_pos hp, List.mem_cons, hp]
    · simp only [candInner, if_neg hp]
      rw [ih]
      have hmem : (rep.ProblemID ∈ pid :: rest) ↔ rep.ProblemID ∈ rest := by
        simp only [List.mem_cons, or_iff_right_iff_imp]
        intro h
        exact absurd h.symm hp
      simp [hmem]

theorem findVideoCand_collectCandidates (ng : List Int)
    (reps : List RepresentativeInfo) :
    findVideoCand (collectCandidates ng reps) =
      (reps.filter (fun r => decide (r.ProblemID ∈ ng))).find?
        (fun r => r.HasSolutionVideo) := by
  induction reps with
  | nil => simp [collectCandidates, findVideoCand]
  | cons rep rest ih =>
    simp only [collectCandidates]
    rw [findVideoCand_candInner_append]
    by_cases hm : rep.ProblemID ∈ ng
    · by_cases hv : rep.HasSolutionVideo
      · simp [hm, hv, List.filter_cons]
      · simp [hm, hv, ih, List.filter_cons]
    · simp [hm, ih, List.filter_cons]

theorem head?_collectCandidates (ng : List Int)
    (reps : List RepresentativeInfo) :
    (collectCandidates ng reps).head? =
      (reps.filter (fun r => decide (r.ProblemID ∈ ng))).head? := by
  induction reps with
  | nil => simp [collectCandidates]
  | cons rep rest ih =>
    simp only [collectCandidates]
    rw [head?_candInner_append]
    by_cases hm : rep.ProblemID ∈ ng
    · simp [hm, List.filter_cons]
    · simp [hm, ih, List.filter_cons]

theorem mem_insertProblems (gid : Int) :
    ∀ (l : List Int) (idx : Int → List Int) (q x : Int),
      x ∈ insertProblems gid l idx q ↔ x ∈ idx q ∨ (x = gid ∧ q ∈ l) := by
  intro l
  induction l with
  | nil => intro idx q x; simp [insertProblems]
  | cons pid rest ih =>
    intro idx q x
    rw [insertProblems, ih]
    by_cases hq : q = pid
    · subst hq
      rw [if_pos rfl]
      simp only [List.mem_append, List.mem_singleton, List.mem_cons]
      tauto
    · rw [if_neg hq]
      simp only [List.mem_cons]
      constructor
      · rintro (hx | ⟨rfl, hrest⟩)
        · exact Or.inl hx
        · exact Or.inr ⟨rfl, Or.inr hrest⟩
      · rintro (hx | ⟨rfl, rfl | hrest⟩)
        · exact Or.inl hx
        · exact absurd rfl hq
        · exact Or.inr ⟨rfl, hrest⟩

theorem mem_buildProblemIndexAux :
    ∀ (gs : List ExerciseGroup) (idx : Int → List Int) (q x : Int),
      x ∈ buildProblemIndexAux gs idx q ↔
        x ∈ idx q ∨ ∃ g ∈ gs, g.ID = x ∧ q ∈ g.ProblemIDs := by
  intro gs
  induction gs with
  | nil => intro idx q x; simp [buildProblemIndexAux]
  | cons g rest ih =>
    intro idx q x
    rw [buildProblemIndexAux, ih]
    simp only [mem_insertProblems, List.mem_cons]
    constructor
    · rintro ((hx | ⟨rfl, hq⟩) | ⟨g', hg', hid, hq⟩)
      · exact Or.inl hx
      · exact Or.inr ⟨g, Or.inl rfl, rfl, hq⟩
      · exact Or.inr ⟨g', Or.inr hg', hid, hq⟩
    · rintro (hx | ⟨g', rfl | hg', hid, hq⟩)
      · exact Or.inl (Or.inl hx)
      · exact Or.inl (Or.inr ⟨hid.symm, hq⟩)
      · exact Or.inr ⟨g', hg', hid, hq⟩

theorem selectBestFromNewGroup_fst (ng : List Int)
    (cgs : List CrossingGroup) (reps : List RepresentativeInfo) :
    (selectBestFromNewGroup ng cgs reps).1 = listMax ng := by
  unfold selectBestFromNewGroup
  by_cases h1 : cgs.isEmpty <;> by_cases h2 : reps.isEmpty <;> simp [h1, h2]


end Resolver

/-- C3: for every non-empty proposed grouping, the resolver picks, among the
existing representatives of crossed groups whose problem id is a member of
the grouping, the first video-bearing one in crossing iteration order, else
the first such member representative regardless of video; if no crossed
existing representative is a member (including when there are no crossings
or none has a representative), it returns the maximum problem id of the
grouping. -/
theorem resolver_rep_selection (newGroup : List Int)
    (cgs : List CrossingGroup) (eg : Int → Option Resolver.ExerciseGroup)
    (h : newGroup ≠ []) :
    (Resolver.selectBestRepresentative newGroup cgs eg).1 =
      (match ((Resolver.collectExistingReps eg cgs).filter
          (fun r => decide (r.ProblemID ∈ newGroup))).find?
          (fun r => r.HasSolutionVideo) with
       | some r => r.ProblemID
       | none =>
         match ((Resolver.collectExistingReps eg cgs).filter
             (fun r => decide (r.ProblemID ∈ newGroup))).head? with
         | some r => r.ProblemID
         | none => listMax newGroup) ∧
    ((Resolver.collectExistingReps eg cgs).filter
        (fun r => decide (r.ProblemID ∈ newGroup)) = [] →
      (Resolver.selectBestRepresentative newGroup cgs eg).1 ∈ newGroup ∧
      ∀ x ∈ newGroup, x ≤ (Resolver.selectBestRepresentative newGroup cgs eg).1) := by
  have hne : newGroup.isEmpty = false := by
    cases newGroup with
    | nil => exact absurd rfl h
    | cons a l => rfl
  unfold Resolver.selectBestRepresentative
  simp only [hne, Bool.false_eq_true, if_false]
  cases hc : Resolver.collectCandidates newGroup
      (Resolver.collectExistingReps eg cgs) with
  | nil =>
    have hfil : (Resolver.collectExistingReps eg cgs).filter
        (fun r => decide (r.ProblemID ∈ newGroup)) = [] := by
      have hh := Resolver.head?_collectCandidates newGroup
        (Resolver.collectExistingReps eg cgs)
      rw [hc] at hh
      exact List.head?_eq_none_iff.mp hh.symm
    refine ⟨?_, ?_⟩
    · simp [hfil, Resolver.selectBestFromNewGroup_fst]
    · intro _
      rw [Resolver.selectBestFromNewGroup_fst]
      exact ⟨listMax_mem newGroup h, fun x hx => listMax_ge newGroup x hx⟩
  | cons c restc =>
    dsimp only
    have hvid := Resolver.findVideoCand_collectCandidates newGroup
      (Resolver.collectExistingReps eg cgs)
    rw [hc] at hvid
    have hhead := Resolver.head?_collectCandidates newGroup
      (Resolver.collectExistingReps eg cgs)
    rw [hc] at hhead
    cases hfind : ((Resolver.collectExistingReps eg cgs).filter
        (fun r => decide (r.ProblemID ∈ newGroup))).find?
        (fun r => r.HasSolutionVideo) with
    | some r =>
      rw [hfind] at hvid
      refine ⟨?_, ?_⟩
      · simp [hvid]
      · intro hfil
        rw [hfil] at hfind
        cases hfind
    | none =>
      rw [hfind] at hvid
      refine ⟨?_, ?_⟩
      · rw [hvid]
        simp only [← hhead, List.head?_cons]
      · intro hfil
        rw [hfil] at hhead
        cases hhead

/-- Witness for C3 at a concrete input: grouping [2,4] crossing groups 10
(representative 2, video) and 20 (representative 5, video); the selection is
representative 2, the first video-bearing crossed representative. -/
theorem resolver_rep_selection_witness :
    (Resolver.selectBestRepresentative [2, 4]
      [⟨10, [2]⟩, ⟨20, [4]⟩]
      (fun i => if i = (10 : Int) then
          some (⟨10, [1, 2, 3], [], 2, true, true⟩ : Resolver.ExerciseGroup)
        else if i = 20 then
          some (⟨20, [4, 5], [], 5, true, true⟩ : Resolver.ExerciseGroup)
        else none)).1 =
      (match ((Resolver.collectExistingReps
          (fun i => if i = (10 : Int) then
              some (⟨10, [1, 2, 3], [], 2, true, true⟩ : Resolver.ExerciseGroup)
            else if i = 20 then
              some (⟨20, [4, 5], [], 5, true, true⟩ : Resolver.ExerciseGroup)
            else none) [⟨10, [2]⟩, ⟨20, [4]⟩]).filter
          (fun r => decide (r.ProblemID ∈ [(2 : Int), 4]))).find?
          (fun r => r.HasSolutionVideo) with
       | some r => r.ProblemID
       | none =>
         match ((Resolver.collectExistingReps
             (fun i => if i = (10 : Int) then
                 some (⟨10, [1, 2, 3], [], 2, true, true⟩ : Resolver.ExerciseGroup)
               else if i = 20 then
                 some (⟨20, [4, 5], [], 5, true, true⟩ : Resolver.ExerciseGroup)
               else none) [⟨10, [2]⟩, ⟨20, [4]⟩]).filter
             (fun r => decide (r.ProblemID ∈ [(2 : Int), 4]))).head? with
         | some r => r.ProblemID
         | none => listMax [2, 4]) ∧
    ((Resolver.collectExistingReps
        (fun i => if i = (10 : Int) then
            some (⟨10, [1, 2, 3], [], 2, true, true⟩ : Resolver.ExerciseGroup)
          else if i = 20 then
            some (⟨20, [4, 5], [], 5, true, true⟩ : Resolver.ExerciseGroup)
          else none) [⟨10, [2]⟩, ⟨20, [4]⟩]).filter
        (fun r => decide (r.ProblemID ∈ [(2 : Int), 4])) = [] →
      (Resolver.selectBestRepresentative [2, 4]
        [⟨10, [2]⟩, ⟨20, [4]⟩]
        (fun i => if i = (10 : Int) then
            some (⟨10, [1, 2, 3], [], 2, true, true⟩ : Resolver.ExerciseGroup)
          else if i = 20 then
            some (⟨20, [4, 5], [], 5, true, true⟩ : Resolver.ExerciseGroup)
          else none)).1 ∈ [(2 : Int), 4] ∧
      ∀ x ∈ [(2 : Int), 4], x ≤
        (Resolver.selectBestRepresentative [2, 4]
          [⟨10, [2]⟩, ⟨20, [4]⟩]
          (fun i => if i = (10 : Int) then
              some (⟨10, [1, 2, 3], [], 2, true, true⟩ : Resolver.ExerciseGroup)
            else if i = 20 then
              some (⟨20, [4, 5], [], 5, true, true⟩ : Resolver.ExerciseGroup)
            else none)).1) :=
  resolver_rep_selection [2, 4] [⟨10, [2]⟩, ⟨20, [4]⟩]
    (fun i => if i = (10 : Int) then
        some (⟨10, [1, 2, 3], [], 2, true, true⟩ : Resolver.ExerciseGroup)
      else if i = 20 then
        some (⟨20, [4, 5], [], 5, true, true⟩ : Resolver.ExerciseGroup)
      else none)
    (by decide)

/-- C7: a group id appears in the reverse-index entry for problem p iff some
existing group with that id contains p; and when group ids are pairwise
distinct (they are keys of the snapshot map), for each group G the entry of
p holds G.ID exactly when p is one of G's members. -/
theorem problem_index_spec (groups : List Resolver.ExerciseGroup) (p g : Int)
    (huniq : (groups.map (fun G => G.ID)).Nodup) :
    (g ∈ Resolver.buildProblemIndex groups p ↔
      ∃ G ∈ groups, G.ID = g ∧ p ∈ G.ProblemIDs) ∧
    (∀ G ∈ groups,
      (G.ID ∈ Resolver.buildProblemIndex groups p ↔ p ∈ G.ProblemIDs)) := by
  have hmem : ∀ x, x ∈ Resolver.buildProblemIndex groups p ↔
      ∃ G ∈ groups, G.ID = x ∧ p ∈ G.ProblemIDs := by
    intro x
    rw [Resolver.buildProblemIndex, Resolver.mem_buildProblemIndexAux]
    simp
  refine ⟨hmem g, ?_⟩
  intro G hG
  rw [hmem G.ID]
  constructor
  · rintro ⟨G', hG', hid, hp⟩
    have : G' = G := List.inj_on_of_nodup_map huniq hG' hG hid
    rw [← this]
    exact hp
  · intro hp
    exact ⟨G, hG, rfl, hp⟩

/-- Witness for C7 at a concrete input: groups 10 = {1,2,3} and 20 = {4,5},
problem 2, group id 10. -/
theorem problem_index_spec_witness :
    ((10 : Int) ∈ Resolver.buildProblemIndex
        [⟨10, [1, 2, 3], [], 2, true, false⟩, ⟨20, [4, 5], [], 5, true, true⟩] 2 ↔
      ∃ G ∈ [(⟨10, [1, 2, 3], [], 2, true, false⟩ : Resolver.ExerciseGroup),
             ⟨20, [4, 5], [], 5, true, true⟩], G.ID = 10 ∧ 2 ∈ G.ProblemIDs) ∧
    (∀ G ∈ [(⟨10, [1, 2, 3], [], 2, true, false⟩ : Resolver.ExerciseGroup),
            ⟨20, [4, 5], [], 5, true, true⟩],
      (G.ID ∈ Resolver.buildProblemIndex
          [⟨10, [1, 2, 3], [], 2, true, false⟩, ⟨20, [4, 5], [], 5, true, true⟩] 2 ↔
        2 ∈ G.ProblemIDs)) :=
  problem_index_spec
    [⟨10, [1, 2, 3], [], 2, true, false⟩, ⟨20, [4, 5], [], 5, true, true⟩]
    2 10 (by decide)

/-- C6: every CrossingGroup recorded by the resolver for a proposed grouping
`newGroup` and an existing group `E` carries exactly the set intersection
`newGroup ∩ E.ProblemIDs`, without duplicates, ordered by first occurrence
in `E.ProblemIDs` (and it is only recorded when non-empty). -/
theorem intersection_recorded_spec
    (newGroup relatedOrder : List Int)
    (eg : Int → Option Resolver.ExerciseGroup)
    (cg : CrossingGroup)
    (hcg : cg ∈ Resolver.processGroupCrossings newGroup eg relatedOrder) :
    ∃ E, eg cg.ID = some E ∧
      cg.Intersection = Resolver.findIntersection newGroup E.ProblemIDs ∧
      cg.Intersection ≠ [] ∧
      (∀ x, x ∈ cg.Intersection ↔ x ∈ newGroup ∧ x ∈ E.ProblemIDs) ∧
      cg.Intersection.Nodup ∧
      cg.Intersection.Pairwise
        (fun x y => E.ProblemIDs.indexOf x < E.ProblemIDs.indexOf y) := by
  induction relatedOrder with
  | nil => cases hcg
  | cons gid rest ih =>
    simp only [Resolver.processGroupCrossings] at hcg
    cases heg : eg gid with
    | none =>
      rw [heg] at hcg
      exact ih hcg
    | some g =>
      rw [heg] at hcg
      dsimp only at hcg
      by_cases hemp : (Resolver.findIntersection newGroup g.ProblemIDs).isEmpty
      · rw [if_pos hemp] at hcg
        exact ih hcg
      · rw [if_neg hemp] at hcg
        rcases List.mem_cons.mp hcg with rfl | hmem
        · refine ⟨g, heg, rfl, ?_, ?_, ?_, ?_⟩
          · intro h
            apply hemp
            rw [List.isEmpty_iff]
            exact h
          · intro x
            rw [Resolver.findIntersection,
              Resolver.mem_findIntersectionAux newGroup g.ProblemIDs [] x]
            simp [and_comm]
          · exact Resolver.nodup_findIntersectionAux newGroup g.ProblemIDs []
          · exact Resolver.pairwise_findIntersectionAux newGroup g.ProblemIDs []
        · exact ih hmem

/-- Witness for C6 at a concrete input: snapshot group 10 = {1,2,3},
proposed grouping [2,3,4]; the recorded crossing is ⟨10, [2,3]⟩. -/
theorem intersection_recorded_spec_witness :
    ∃ E, (fun i => if i = (10 : Int) then
            some (⟨10, [1, 2, 3], [], 2, true, false⟩ : Resolver.ExerciseGroup)
          else none) (CrossingGroup.mk 10 [2, 3]).ID = some E ∧
      (CrossingGroup.mk 10 [2, 3]).Intersection =
        Resolver.findIntersection [2, 3, 4] E.ProblemIDs ∧
      (CrossingGroup.mk 10 [2, 3]).Intersection ≠ [] ∧
      (∀ x, x ∈ (CrossingGroup.mk 10 [2, 3]).Intersection ↔
        x ∈ [(2 : Int), 3, 4] ∧ x ∈ E.ProblemIDs) ∧
      (CrossingGroup.mk 10 [2, 3]).Intersection.Nodup ∧
      (CrossingGroup.mk 10 [2, 3]).Intersection.Pairwise
        (fun x y => E.ProblemIDs.indexOf x < E.ProblemIDs.indexOf y) :=
  intersection_recorded_spec [2, 3, 4] [10]
    (fun i => if i = (10 : Int) then
        some (⟨10, [1, 2, 3], [], 2, true, false⟩ : Resolver.ExerciseGroup)
      else none)
    (CrossingGroup.mk 10 [2, 3]) (by decide)

theorem parseProblemIDs_eq_filterMap (entries : List String) :
    Resolver.parseProblemIDs entries =
      entries.filterMap (fun s => Resolver.atoi s.trim) := by
  induction entries with
  | nil => rfl
  | cons s rest ih =>
    cases h : Resolver.atoi s.trim with
    | none => simp [Resolver.parseProblemIDs, List.filterMap_cons, h, ih]
    | some v => simp [Resolver.parseProblemIDs, List.filterMap_cons, h, ih]

theorem parseRow_isNone (record : List String)
    (h : Resolver.atoi (record.getD 0 "") = none) :
    Resolver.parseRow record = none := by
  rw [Resolver.parseRow, h]

theorem loadRows_drop (bad : List String)
    (hbad : Resolver.parseRow bad = none) :
    ∀ (pre post : List (List String)) (m : Int → Option Resolver.ExerciseGroup),
      Resolver.loadRows (pre ++ bad :: post) m = Resolver.loadRows (pre ++ post) m := by
  intro pre
  induction pre with
  | nil =>
    intro post m
    simp only [List.nil_append, Resolver.loadRows, hbad]
  | cons r pre ih =>
    intro post m
    cases hp : Resolver.parseRow r with
    | none =>
      simp only [List.cons_append, Resolver.loadRows, hp]
      exact ih post m
    | some g =>
      simp only [List.cons_append, Resolver.loadRows, hp]
      exact ih post _

/-- C9: the snapshot loader is lenient toward malformed data rows: a data
row whose group-id column fails integer parsing is silently dropped (the
load still succeeds and produces the same snapshot as without that row),
and within a row a member-id entry that fails parsing is omitted while the
rest of the row is kept (the member list equals the `filterMap` of the
per-entry parses). -/
theorem loader_lenient (header bad : List String)
    (pre post : List (List String))
    (hbad : Resolver.atoi (bad.getD 0 "") = none) :
    Resolver.loadExerciseGroups (header :: (pre ++ bad :: post)) =
      Resolver.loadExerciseGroups (header :: (pre ++ post)) ∧
    (∃ m, Resolver.loadExerciseGroups (header :: (pre ++ bad :: post)) =
      Except.ok m) ∧
    (∀ (record : List String) (g : Resolver.ExerciseGroup),
      Resolver.parseRow record = some g →
        g.ProblemIDs = (if record.getD 1 "" = "" then []
          else ((record.getD 1 "").splitOn ",").filterMap
            (fun s => Resolver.atoi s.trim))) := by
  refine ⟨?_, ⟨_, rfl⟩, ?_⟩
  · rw [Resolver.loadExerciseGroups, Resolver.loadExerciseGroups,
      loadRows_drop bad (parseRow_isNone bad hbad)]
  · intro record g h
    rw [Resolver.parseRow] at h
    cases hat : Resolver.atoi (record.getD 0 "") with
    | none => rw [hat] at h; cases h
    | some gid =>
      rw [hat] at h
      dsimp only at h
      injection h with h
      rw [← h]
      dsimp only
      by_cases hr : record.getD 1 "" = ""
      · rw [if_pos hr, if_pos hr]
      · rw [if_neg hr, if_neg hr, parseProblemIDs_eq_filterMap]

/-- Witness for C9 at a concrete input: the row with group id "abc" is
dropped, the load succeeds, and rows keep only parsing member entries. -/
theorem loader_lenient_witness :
    Resolver.loadExerciseGroups
        (["group_id", "problem_ids"] ::
          ([] ++ ["abc", "7,8"] :: [["5", "1,x,2"]])) =
      Resolver.loadExerciseGroups
        (["group_id", "problem_ids"] :: ([] ++ [["5", "1,x,2"]])) ∧
    (∃ m, Resolver.loadExerciseGroups
        (["group_id", "problem_ids"] ::
          ([] ++ ["abc", "7,8"] :: [["5", "1,x,2"]])) = Except.ok m) ∧
    (∀ (record : List String) (g : Resolver.ExerciseGroup),
      Resolver.parseRow record = some g →
        g.ProblemIDs = (if record.getD 1 "" = "" then []
          else ((record.getD 1 "").splitOn ",").filterMap
            (fun s => Resolver.atoi s.trim))) :=
  loader_lenient ["group_id", "problem_ids"] ["abc", "7,8"]
    [] [["5", "1,x,2"]] (by decide)

/-- C1 (refuted by the code): `processGroups` shares `nextGroupID` as a plain
pointer and `processGroup` runs `newGroupID := *nextGroupID; *nextGroupID++`
without any atomic primitive, so the valid two-worker interleaving
read1, read2, inc1, inc2 assigns BOTH groupings the same new id
(max existing id + 1 = 21 over a snapshot with groups 10 and 20), violating
pairwise distinctness; a fully sequential interleaving of the same two
jobs yields the distinct ids 21 and 22. -/
theorem group_id_race_duplicate :
    Race.validSchedule
      [Race.RaceStep.read1, Race.RaceStep.read2,
       Race.RaceStep.inc1, Race.RaceStep.inc2] ∧
    (Race.runRace (Resolver.getMaxGroupID [10, 20] + 1)
        [Race.RaceStep.read1, Race.RaceStep.read2,
         Race.RaceStep.inc1, Race.RaceStep.inc2]).id1 =
      some (Resolver.getMaxGroupID [10, 20] + 1) ∧
    (Race.runRace (Resolver.getMaxGroupID [10, 20] + 1)
        [Race.RaceStep.read1, Race.RaceStep.read2,
         Race.RaceStep.inc1, Race.RaceStep.inc2]).id2 =
      some (Resolver.getMaxGroupID [10, 20] + 1) ∧
    Race.validSchedule
      [Race.RaceStep.read1, Race.RaceStep.inc1,
       Race.RaceStep.read2, Race.RaceStep.inc2] ∧
    (Race.runRace (Resolver.getMaxGroupID [10, 20] + 1)
        [Race.RaceStep.read1, Race.RaceStep.inc1,
         Race.RaceStep.read2, Race.RaceStep.inc2]).id1 = some 21 ∧
    (Race.runRace (Resolver.getMaxGroupID [10, 20] + 1)
        [Race.RaceStep.read1, Race.RaceStep.inc1,
         Race.RaceStep.read2, Race.RaceStep.inc2]).id2 = some 22 := by
  unfold Race.validSchedule
  decide

theorem getCategoryIDFromProblem_eq_zero (db : CsvUploader.DB) (pid : Int)
    (h : ∀ e ∈ db.exercises, e.problemId = pid → e.deleted = true) :
    CsvUploader.getCategoryIDFromProblem db pid = 0 := by
  have hfil : db.exercises.filter (fun e => e.problemId == pid && !e.deleted) = [] := by
    rw [List.filter_eq_nil_iff]
    intro e he
    intro hcon
    simp only [Bool.and_eq_true, beq_iff_eq, Bool.not_eq_true'] at hcon
    exact absurd (h e he hcon.1) (by rw [hcon.2]; exact Bool.false_ne_true)
  simp [CsvUploader.getCategoryIDFromProblem, hfil]

theorem firstCategory_eq_zero (db : CsvUploader.DB) (pids : List Int)
    (h : ∀ pid ∈ pids, ∀ e ∈ db.exercises, e.problemId = pid → e.deleted = true) :
    CsvUploader.firstCategory db pids = 0 := by
  induction pids with
  | nil => rfl
  | cons pid rest ih =>
    have h0 : CsvUploader.getCategoryIDFromProblem db pid = 0 :=
      getCategoryIDFromProblem_eq_zero db pid (h pid (List.mem_cons_self _ _))
    have hrest := ih (fun p hp => h p (List.mem_cons_of_mem _ hp))
    simp [CsvUploader.firstCategory, h0, hrest]

/-- C10: a record whose member problem-id list is empty is accepted
immediately: the transaction state is unchanged (no statement executed, no
store mutation) and no warning is printed; a chunk beginning with such a
record behaves exactly like the chunk without it. -/
theorem empty_record_noop (r : CrossingResult) (h : r.ProblemIDs = []) :
    (∀ ts : CsvUploader.TxState,
      CsvUploader.processResult r ts = Except.ok (ts, [])) ∧
    (∀ (db : CsvUploader.DB) (failAt : Option Nat)
        (rest : List CrossingResult),
      CsvUploader.processBatch db failAt (r :: rest) =
        CsvUploader.processBatch db failAt rest) := by
  have hskip : ∀ ts : CsvUploader.TxState,
      CsvUploader.processResult r ts = Except.ok (ts, []) := by
    intro ts
    simp [CsvUploader.processResult, h]
  refine ⟨hskip, ?_⟩
  intro db failAt rest
  cases hrec : CsvUploader.processRecords rest ⟨db, 0, failAt⟩ with
  | error e =>
    simp [CsvUploader.processBatch, CsvUploader.processRecords, hskip, hrec]
  | ok p =>
    simp [CsvUploader.processBatch, CsvUploader.processRecords, hskip, hrec]

/-- Witness for C10: a record with no members leaves a concrete store
untouched, prints nothing, and the chunk equals the chunk without it. -/
theorem empty_record_noop_witness :
    CsvUploader.processResult ⟨100, 0, [], [], 0, ""⟩
        ⟨⟨[], [], 1⟩, 0, none⟩ =
      Except.ok (⟨⟨[], [], 1⟩, 0, none⟩, []) ∧
    CsvUploader.processBatch ⟨[], [], 1⟩ none [⟨100, 0, [], [], 0, ""⟩] =
      CsvUploader.processBatch ⟨[], [], 1⟩ none [] :=
  ⟨(empty_record_noop ⟨100, 0, [], [], 0, ""⟩ rfl).1 ⟨⟨[], [], 1⟩, 0, none⟩,
   (empty_record_noop ⟨100, 0, [], [], 0, ""⟩ rfl).2 ⟨[], [], 1⟩ none []⟩

/-- C5: a record none of whose member problems exists live in the store is
skipped without error: the transaction state is returned unchanged apart
from one warning naming the record, no store mutation happens, and a chunk
beginning with such a record commits exactly as the chunk without it. -/
theorem skip_vanished_record (r : CrossingResult) (hne : r.ProblemIDs ≠ []) :
    (∀ ts : CsvUploader.TxState,
      (∀ pid ∈ r.ProblemIDs, ∀ e ∈ ts.db.exercises,
        e.problemId = pid → e.deleted = true) →
      CsvUploader.processResult r ts = Except.ok (ts, [r.NewGroupID])) ∧
    (∀ (db : CsvUploader.DB) (failAt : Option Nat)
        (rest : List CrossingResult),
      (∀ pid ∈ r.ProblemIDs, ∀ e ∈ db.exercises,
        e.problemId = pid → e.deleted = true) →
      CsvUploader.processBatch db failAt (r :: rest) =
        CsvUploader.processBatch db failAt rest) := by
  have hE : r.ProblemIDs.isEmpty = false := by
    cases hr : r.ProblemIDs with
    | nil => exact absurd hr hne
    | cons a l => rfl
  have hskip : ∀ ts : CsvUploader.TxState,
      (∀ pid ∈ r.ProblemIDs, ∀ e ∈ ts.db.exercises,
        e.problemId = pid → e.deleted = true) →
      CsvUploader.processResult r ts = Except.ok (ts, [r.NewGroupID]) := by
    intro ts hvan
    have h0 := firstCategory_eq_zero ts.db r.ProblemIDs hvan
    simp [CsvUploader.processResult, hE, h0]
  refine ⟨hskip, ?_⟩
  intro db failAt rest hvan
  have hs := hskip ⟨db, 0, failAt⟩ hvan
  cases hrec : CsvUploader.processRecords rest ⟨db, 0, failAt⟩ with
  | error e =>
    simp [CsvUploader.processBatch, CsvUploader.processRecords, hs, hrec]
  | ok p =>
    simp [CsvUploader.processBatch, CsvUploader.processRecords, hs, hrec]

/-- Witness for C5: both member problems of the record exist only as a
soft-deleted row or not at all; the record is skipped with a warning and
the chunk commits unchanged. -/
theorem skip_vanished_record_witness :
    CsvUploader.processResult ⟨100, 0, [1, 2], [], 2, ""⟩
        ⟨⟨[⟨1, 1, 7, 5, false, false, true⟩], [], 6⟩, 0, none⟩ =
      Except.ok (⟨⟨[⟨1, 1, 7, 5, false, false, true⟩], [], 6⟩, 0, none⟩, [100]) ∧
    CsvUploader.processBatch ⟨[⟨1, 1, 7, 5, false, false, true⟩], [], 6⟩ none
        [⟨100, 0, [1, 2], [], 2, ""⟩] =
      CsvUploader.processBatch ⟨[⟨1, 1, 7, 5, false, false, true⟩], [], 6⟩ none [] :=
  ⟨(skip_vanished_record ⟨100, 0, [1, 2], [], 2, ""⟩ (by decide)).1
      ⟨⟨[⟨1, 1, 7, 5, false, false, true⟩], [], 6⟩, 0, none⟩ (by decide),
   (skip_vanished_record ⟨100, 0, [1, 2], [], 2, ""⟩ (by decide)).2
      ⟨[⟨1, 1, 7, 5, false, false, true⟩], [], 6⟩ none [] (by decide)⟩

theorem processRecords_append (l1 l2 : List CrossingResult)
    (ts : CsvUploader.TxState) :
    CsvUploader.processRecords (l1 ++ l2) ts =
      match CsvUploader.processRecords l1 ts with
      | Except.error e => Except.error e
      | Except.ok (ts1, w1) =>
        match CsvUploader.processRecords l2 ts1 with
        | Except.error e => Except.error e
        | Except.ok (ts2, w2) => Except.ok (ts2, w1 ++ w2) := by
  induction l1 generalizing ts with
  | nil =>
    cases h2 : CsvUploader.processRecords l2 ts with
    | error e => simp [CsvUploader.processRecords, h2]
    | ok p => simp [CsvUploader.processRecords, h2]
  | cons r rest ih =>
    cases hr : CsvUploader.processResult r ts with
    | error e =>
      simp [CsvUploader.processRecords, hr]
    | ok p =>
      obtain ⟨ts1, w1⟩ := p
      rw [List.cons_append]
      simp only [CsvUploader.processRecords, hr]
      rw [ih ts1]
      cases h1 : CsvUploader.processRecords rest ts1 with
      | error e => simp
      | ok q =>
        obtain ⟨ts2, w2⟩ := q
        cases h2 : CsvUploader.processRecords l2 ts2 with
        | error e => simp [h2]
        | ok s => simp [h2, List.append_assoc]

/-- C4: the chunk is the unit of atomicity: if the i-th record of a chunk
fails after the first i records succeeded, the whole chunk rolls back (the
resulting store is exactly the pre-chunk store) and the record's error is
propagated; and whenever the record loop succeeds the chunk commits its
final transaction state. -/
theorem chunk_atomicity (db : CsvUploader.DB) (failAt : Option Nat)
    (batch : List CrossingResult) :
    (∀ (i : Nat) (hi : i < batch.length) (ts : CsvUploader.TxState)
        (w : List Int) (e : String),
      CsvUploader.processRecords (batch.take i) ⟨db, 0, failAt⟩ =
        Except.ok (ts, w) →
      CsvUploader.processResult batch[i] ts = Except.error e →
      CsvUploader.processBatch db failAt batch = (db, some e)) ∧
    (∀ (ts : CsvUploader.TxState) (w : List Int),
      CsvUploader.processRecords batch ⟨db, 0, failAt⟩ = Except.ok (ts, w) →
      CsvUploader.processBatch db failAt batch = (ts.db, none)) := by
  constructor
  · intro i hi ts w e hpre hfail
    have hsplit : batch = batch.take i ++ batch[i] :: batch.drop (i + 1) := by
      rw [← List.drop_eq_getElem_cons hi, List.take_append_drop]
    have herr : CsvUploader.processRecords batch ⟨db, 0, failAt⟩ =
        Except.error e := by
      rw [hsplit, processRecords_append, hpre]
      simp only [CsvUploader.processRecords, hfail]
    simp [CsvUploader.processBatch, herr]
  · intro ts w hok
    simp [CsvUploader.processBatch, hok]

/-- Witness for C4 at a concrete input: a chunk of one record over a store
holding live problem 1; the first write statement (the group INSERT) fails,
so the chunk rolls back to the original store and the error propagates. -/
theorem chunk_atomicity_witness :
    CsvUploader.processBatch ⟨[⟨1, 1, 7, 5, false, false, false⟩], [⟨5, 7, false⟩], 6⟩
        (some 0) [⟨100, 0, [1], [], 1, ""⟩] =
      (⟨[⟨1, 1, 7, 5, false, false, false⟩], [⟨5, 7, false⟩], 6⟩, some "statement failed") :=
  (chunk_atomicity ⟨[⟨1, 1, 7, 5, false, false, false⟩], [⟨5, 7, false⟩], 6⟩
      (some 0) [⟨100, 0, [1], [], 1, ""⟩]).1
    0 (by decide)
    ⟨⟨[⟨1, 1, 7, 5, false, false, false⟩], [⟨5, 7, false⟩], 6⟩, 0, some 0⟩
    [] "statement failed" (by decide) (by decide)

theorem findVideoRepInner_eq (rep : CsvUploader.RepresentativeInfo)
    (pids : List Int) :
    CsvUploader.findVideoRepInner rep pids =
      (if rep.ProblemID ∈ pids ∧ rep.HasSolutionVideo then some rep.ProblemID
       else none) := by
  induction pids with
  | nil => simp [CsvUploader.findVideoRepInner]
  | cons pid rest ih =>
    by_cases hp : pid = rep.ProblemID
    · subst hp
      by_cases hv : rep.HasSolutionVideo
      · simp [CsvUploader.findVideoRepInner, hv]
      · simp [CsvUploader.findVideoRepInner, hv, ih]
    · have hm : (rep.ProblemID ∈ pid :: rest) ↔ rep.ProblemID ∈ rest := by
        simp only [List.mem_cons, or_iff_right_iff_imp]
        intro h
        exact absurd h.symm hp
      simp [CsvUploader.findVideoRepInner, hp, ih, hm]

theorem findMemberRepInner_eq (rep : CsvUploader.RepresentativeInfo)
    (pids : List Int) :
    CsvUploader.findMemberRepInner rep pids =
      (if rep.ProblemID ∈ pids then some rep.ProblemID else none) := by
  induction pids with
  | nil => simp [CsvUploader.findMemberRepInner]
  | cons pid rest ih =>
    by_cases hp : pid = rep.ProblemID
    · subst hp
      simp [CsvUploader.findMemberRepInner]
    · have hm : (rep.ProblemID ∈ pid :: rest) ↔ rep.ProblemID ∈ rest := by
        simp only [List.mem_cons, or_iff_right_iff_imp]
        intro h
        exact absurd h.symm hp
      simp [CsvUploader.findMemberRepInner, hp, ih, hm]

theorem findVideoRep_eq (reps : List CsvUploader.RepresentativeInfo)
    (pids : List Int) :
    CsvUploader.findVideoRep reps pids =
      (reps.find? (fun r => decide (r.ProblemID ∈ pids) && r.HasSolutionVideo)).map
        (fun r => r.ProblemID) := by
  induction reps with
  | nil => simp [CsvUploader.findVideoRep]
  | cons rep rest ih =>
    simp only [CsvUploader.findVideoRep, findVideoRepInner_eq]
    by_cases hc : rep.ProblemID ∈ pids ∧ rep.HasSolutionVideo
    · rw [if_pos hc, List.find?_cons_of_pos]
      · simp
      · simp [hc.1, hc.2]
    · rw [if_neg hc, List.find?_cons_of_neg, ih]
      simp only [Bool.and_eq_true, decide_eq_true_eq]
      exact fun h => hc ⟨h.1, h.2⟩

theorem findMemberRep_eq (reps : List CsvUploader.RepresentativeInfo)
    (pids : List Int) :
    CsvUploader.findMemberRep reps pids =
      (reps.find? (fun r => decide (r.ProblemID ∈ pids))).map
        (fun r => r.ProblemID) := by
  induction reps with
  | nil => simp [CsvUploader.findMemberRep]
  | cons rep rest ih =>
    simp only [CsvUploader.findMemberRep, findMemberRepInner_eq]
    by_cases hc : rep.ProblemID ∈ pids
    · rw [if_pos hc, List.find?_cons_of_pos]
      · simp
      · simp [hc]
    · rw [if_neg hc, List.find?_cons_of_neg, ih]
      simp [hc]

theorem findVideoProblem_eq (db : CsvUploader.DB) (pids : List Int) :
    CsvUploader.findVideoProblem db pids =
      pids.find? (fun pid =>
        match (db.exercises.filter
            (fun e => e.problemId == pid && !e.deleted)).head? with
        | some e => e.hasVideo
        | none => false) := by
  induction pids with
  | nil => simp [CsvUploader.findVideoProblem]
  | cons pid rest ih =>
    simp only [CsvUploader.findVideoProblem]
    cases hh : (db.exercises.filter
        (fun e => e.problemId == pid && !e.deleted)).head? with
    | some e =>
      by_cases hv : e.hasVideo
      · rw [List.find?_cons_of_pos]
        · simp [hv]
        · simp [hh, hv]
      · rw [List.find?_cons_of_neg, ih]
        · simp [hv]
        · simp [hh, hv]
    | none =>
      rw [List.find?_cons_of_neg, ih]
      simp [hh]

/-- C2 (amended): at application time the Applier re-derives the
representative against live store state; when the record has at least one
crossing group the four tiers apply in order — a crossed group's live
representative row that is a member of the record and has a solution video,
then such a member representative regardless of video, then a member
problem whose live row carries a video, else the maximum member id — but
when the record has NO crossing groups the maximum member id is returned
directly, skipping the video-bearing-member preference. -/
theorem applier_rep_tiers (db : CsvUploader.DB) (pids : List Int)
    (cgs : List CrossingGroup) (hne : pids ≠ []) :
    (cgs ≠ [] →
      CsvUploader.selectBestRepresentative db pids cgs =
        (match (CsvUploader.tierCollect db cgs).find?
            (fun r => decide (r.ProblemID ∈ pids) && r.HasSolutionVideo) with
         | some r => r.ProblemID
         | none =>
           match (CsvUploader.tierCollect db cgs).find?
               (fun r => decide (r.ProblemID ∈ pids)) with
           | some r => r.ProblemID
           | none =>
             match pids.find? (fun pid =>
                 match (db.exercises.filter
                     (fun e => e.problemId == pid && !e.deleted)).head? with
                 | some e => e.hasVideo
                 | none => false) with
             | some pid => pid
             | none => listMax pids)) ∧
    (CsvUploader.selectBestRepresentative db pids [] = listMax pids ∧
      listMax pids ∈ pids ∧ ∀ x ∈ pids, x ≤ listMax pids) := by
  have hpe : pids.isEmpty = false := by
    cases hp : pids with
    | nil => exact absurd hp hne
    | cons a l => rfl
  constructor
  · intro hcg
    have hce : cgs.isEmpty = false := by
      cases hc : cgs with
      | nil => exact absurd hc hcg
      | cons a l => rfl
    simp only [CsvUploader.selectBestRepresentative, hpe, hce,
      Bool.false_eq_true, if_false]
    rw [findVideoRep_eq, findMemberRep_eq, findVideoProblem_eq]
    cases h1 : (CsvUploader.tierCollect db cgs).find?
        (fun r => decide (r.ProblemID ∈ pids) && r.HasSolutionVideo) with
    | some r => simp
    | none =>
      simp only [Option.map_none']
      cases h2 : (CsvUploader.tierCollect db cgs).find?
          (fun r => decide (r.ProblemID ∈ pids)) with
      | some r => simp
      | none => simp only [Option.map_none']
  · refine ⟨?_, listMax_mem pids hne, fun x hx => listMax_ge pids x hx⟩
    simp [CsvUploader.selectBestRepresentative, hpe]

/-- C2 counterexample: a record with NO crossing groups whose member
problem 1 is live with a solution video and whose maximum member id is 2:
the source's Applier picks 2 (maximum id, early return), while the claim's
uniform tier policy picks the video-bearing member 1. -/
theorem applier_rep_uniform_counterexample :
    CsvUploader.selectBestRepresentative
        ⟨[⟨1, 1, 7, 5, false, true, false⟩, ⟨2, 2, 7, 5, false, false, false⟩],
         [], 6⟩ [1, 2] [] = 2 ∧
    CsvUploader.selectBestRepresentativeClaimed
        ⟨[⟨1, 1, 7, 5, false, true, false⟩, ⟨2, 2, 7, 5, false, false, false⟩],
         [], 6⟩ [1, 2] [] = 1 ∧
    (2 : Int) ≠ 1 := by
  decide

/-- Witness for C2 (amended) at a concrete input: one crossing group 10
whose live representative row (problem 2, no video) is a member of the
record [2, 3]; the second tier selects problem 2. -/
theorem applier_rep_tiers_witness :
    ((([⟨10, [2]⟩] : List CrossingGroup) ≠ []) →
      CsvUploader.selectBestRepresentative
          ⟨[⟨1, 2, 7, 10, true, false, false⟩], [], 11⟩ [2, 3] [⟨10, [2]⟩] =
        (match (CsvUploader.tierCollect
            ⟨[⟨1, 2, 7, 10, true, false, false⟩], [], 11⟩ [⟨10, [2]⟩]).find?
            (fun r => decide (r.ProblemID ∈ [(2 : Int), 3]) && r.HasSolutionVideo) with
         | some r => r.ProblemID
         | none =>
           match (CsvUploader.tierCollect
               ⟨[⟨1, 2, 7, 10, true, false, false⟩], [], 11⟩ [⟨10, [2]⟩]).find?
               (fun r => decide (r.ProblemID ∈ [(2 : Int), 3])) with
           | some r => r.ProblemID
           | none =>
             match ([(2 : Int), 3]).find? (fun pid =>
                 match ((⟨[⟨1, 2, 7, 10, true, false, false⟩], [], 11⟩ :
                     CsvUploader.DB).exercises.filter
                     (fun e => e.problemId == pid && !e.deleted)).head? with
                 | some e => e.hasVideo
                 | none => false) with
             | some pid => pid
             | none => listMax [2, 3])) ∧
    (CsvUploader.selectBestRepresentative
        ⟨[⟨1, 2, 7, 10, true, false, false⟩], [], 11⟩ [2, 3] [] =
      listMax [2, 3] ∧
      listMax [2, 3] ∈ [(2 : Int), 3] ∧
      ∀ x ∈ [(2 : Int), 3], x ≤ listMax [2, 3]) :=
  applier_rep_tiers ⟨[⟨1, 2, 7, 10, true, false, false⟩], [], 11⟩
    [2, 3] [⟨10, [2]⟩] (by decide)

theorem setFn_clearFn_pred (pid gid : Int) (e : CsvUploader.Exercise) :
    ((CsvUploader.setFn pid gid (CsvUploader.clearFn gid e)).groupId == gid &&
      (CsvUploader.setFn pid gid (CsvUploader.clearFn gid e)).isRepresentative &&
      !(CsvUploader.setFn pid gid (CsvUploader.clearFn gid e)).deleted) =
    (e.problemId == pid && e.groupId == gid && !e.deleted) := by
  unfold CsvUploader.setFn CsvUploader.clearFn
  by_cases hA : (e.groupId == gid) = true <;>
    by_cases hD : e.deleted = true <;>
      by_cases hP : (e.problemId == pid) = true <;>
        by_cases hR : e.isRepresentative = true <;>
          simp [hA, hD, hP, hR]

theorem setFn_clearFn_of_sel (pid gid : Int) (e : CsvUploader.Exercise)
    (h : (e.problemId == pid && e.groupId == gid && !e.deleted) = true) :
    CsvUploader.setFn pid gid (CsvUploader.clearFn gid e) =
      { e with isRepresentative := true } := by
  simp only [Bool.and_eq_true, Bool.not_eq_true'] at h
  unfold CsvUploader.setFn CsvUploader.clearFn
  simp [h.1.1, h.1.2, h.2]

theorem setRep_clear_filter (db : CsvUploader.DB) (pid gid : Int) :
    (CsvUploader.setRepFlag pid gid
        (CsvUploader.clearRepFlags gid db)).exercises.filter
      (fun e => e.groupId == gid && e.isRepresentative && !e.deleted) =
      (db.exercises.filter
          (fun e => e.problemId == pid && e.groupId == gid && !e.deleted)).map
        (fun e => { e with isRepresentative := true }) := by
  simp only [CsvUploader.setRepFlag, CsvUploader.clearRepFlags]
  induction db.exercises with
  | nil => rfl
  | cons e rest ih =>
    rw [List.map_cons, List.map_cons, List.filter_cons, List.filter_cons,
      setFn_clearFn_pred]
    by_cases hsel : (e.problemId == pid && e.groupId == gid && !e.deleted) = true
    · rw [if_pos hsel, if_pos hsel, setFn_clearFn_of_sel pid gid e hsel, ih,
        List.map_cons]
    · rw [if_neg hsel, if_neg hsel, ih]

theorem length_filter_problem_le_one (l : List CsvUploader.Exercise)
    (pid gid : Int)
    (h : ((l.filter (fun e => !e.deleted)).map (fun e => e.problemId)).Nodup) :
    (l.filter
        (fun e => e.problemId == pid && e.groupId == gid && !e.deleted)).length ≤ 1 := by
  induction l with
  | nil => simp
  | cons e rest ih =>
    by_cases hD : e.deleted = true
    · have h' : ((rest.filter (fun e => !e.deleted)).map
          (fun e => e.problemId)).Nodup := by
        simpa [List.filter_cons, hD] using h
      have hpred : (e.problemId == pid && e.groupId == gid && !e.deleted) = false := by
        simp [hD]
      rw [List.filter_cons, hpred]
      exact ih h'
    · rw [List.filter_cons, Bool.not_eq_true] at *
      simp only [hD, Bool.not_false, if_true, List.map_cons, List.nodup_cons] at h
      obtain ⟨h1, h2⟩ := h
      by_cases hsel : (e.problemId == pid && e.groupId == gid && !e.deleted) = true
      · rw [if_pos hsel]
        have hparts := hsel
        simp only [Bool.and_eq_true, beq_iff_eq, Bool.not_eq_true'] at hparts
        have hnil : rest.filter
            (fun e => e.problemId == pid && e.groupId == gid && !e.deleted) = [] := by
          rw [List.filter_eq_nil_iff]
          intro y hy hcon
          simp only [Bool.and_eq_true, beq_iff_eq, Bool.not_eq_true'] at hcon
          apply h1
          rw [List.mem_map]
          refine ⟨y, ?_, ?_⟩
          · rw [List.mem_filter]
            refine ⟨hy, ?_⟩
            rw [hcon.2]
            rfl
          · rw [hcon.1.1, hparts.1.1]
        rw [hnil]
        simp
      · rw [if_neg hsel]
        exact ih h2

/-- C8: after the representative-setting step — clear the flag on every
live exercise of the new group, then set it on the live rows matching the
chosen problem id — at most one live exercise of the group carries the
flag (the store is keyed by the external problem id, so live problem ids
are pairwise distinct), and when no live row of the group matches the
chosen id the group ends with no flagged representative at all. -/
theorem representative_flag_exclusive (db : CsvUploader.DB) (pid gid : Int)
    (huniq : ((db.exercises.filter (fun e => !e.deleted)).map
        (fun e => e.problemId)).Nodup) :
    (∀ n : Nat,
      CsvUploader.setRepresentativeExercise pid gid ⟨db, n, none⟩ =
        Except.ok ⟨CsvUploader.setRepFlag pid gid
          (CsvUploader.clearRepFlags gid db), n + 2, none⟩) ∧
    ((CsvUploader.setRepFlag pid gid
        (CsvUploader.clearRepFlags gid db)).exercises.filter
      (fun e => e.groupId == gid && e.isRepresentative && !e.deleted)).length ≤ 1 ∧
    ((∀ e ∈ db.exercises,
        ¬(e.problemId = pid ∧ e.groupId = gid ∧ e.deleted = false)) →
      (CsvUploader.setRepFlag pid gid
          (CsvUploader.clearRepFlags gid db)).exercises.filter
        (fun e => e.groupId == gid && e.isRepresentative && !e.deleted) = []) := by
  refine ⟨?_, ?_, ?_⟩
  · intro n
    simp [CsvUploader.setRepresentativeExercise, CsvUploader.execWrite]
  · rw [setRep_clear_filter, List.length_map]
    exact length_filter_problem_le_one db.exercises pid gid huniq
  · intro h
    rw [setRep_clear_filter]
    have hnil : db.exercises.filter
        (fun e => e.problemId == pid && e.groupId == gid && !e.deleted) = [] := by
      rw [List.filter_eq_nil_iff]
      intro e he hcon
      simp only [Bool.and_eq_true, beq_iff_eq, Bool.not_eq_true'] at hcon
      exact h e he ⟨hcon.1.1, hcon.1.2, hcon.2⟩
    rw [hnil, List.map_nil]

/-- Witness for C8 at a concrete input: a group with two live flagged rows
and a chosen problem id (3) matching no live row; after clear-then-set the
group has zero flagged representatives (so at most one holds). -/
theorem representative_flag_exclusive_witness :
    CsvUploader.setRepresentativeExercise 3 5
        ⟨⟨[⟨1, 1, 7, 5, true, false, false⟩, ⟨2, 2, 7, 5, true, true, false⟩],
          [], 6⟩, 0, none⟩ =
      Except.ok ⟨CsvUploader.setRepFlag 3 5 (CsvUploader.clearRepFlags 5
        ⟨[⟨1, 1, 7, 5, true, false, false⟩, ⟨2, 2, 7, 5, true, true, false⟩],
         [], 6⟩), 0 + 2, none⟩ ∧
    ((CsvUploader.setRepFlag 3 5 (CsvUploader.clearRepFlags 5
        ⟨[⟨1, 1, 7, 5, true, false, false⟩, ⟨2, 2, 7, 5, true, true, false⟩],
         [], 6⟩)).exercises.filter
      (fun e => e.groupId == 5 && e.isRepresentative && !e.deleted)).length ≤ 1 ∧
    (CsvUploader.setRepFlag 3 5 (CsvUploader.clearRepFlags 5
        ⟨[⟨1, 1, 7, 5, true, false, false⟩, ⟨2, 2, 7, 5, true, true, false⟩],
         [], 6⟩)).exercises.filter
      (fun e => e.groupId == 5 && e.isRepresentative && !e.deleted) = [] :=
  ⟨(representative_flag_exclusive
      ⟨[⟨1, 1, 7, 5, true, false, false⟩, ⟨2, 2, 7, 5, true, true, false⟩],
       [], 6⟩ 3 5 (by decide)).1 0,
   (representative_flag_exclusive
      ⟨[⟨1, 1, 7, 5, true, false, false⟩, ⟨2, 2, 7, 5, true, true, false⟩],
       [], 6⟩ 3 5 (by decide)).2.1,
   (representative_flag_exclusive
      ⟨[⟨1, 1, 7, 5, true, false, false⟩, ⟨2, 2, 7, 5, true, true, false⟩],
       [], 6⟩ 3 5 (by decide)).2.2 (by decide)⟩
